import Mathlib

/-!
Verification of the memcached UDP benchmark (`src/main.rs`).

This file shallowly embeds the parts of the program the specification talks
about: the GET-datagram encoder `wrap_get_command`, the channel-consuming
socket worker `socket_task`, the sequential worker `get_key` together with its
driving loop `get_command_benchmark_verify`, the producer loop of
`get_command_benchmark`, and the corpus generator
`generate_memcached_test_dict`.

Modelling conventions:
- Machine integers are `Nat` with explicit wrapping (`% 2^64` for `usize`
  arithmetic, `% 2^16` for `u16`).
- The thread-local random generator is an oracle: a stream of values supplied
  as a function argument.  `gen_range(0..hi)` is modelled as reducing an
  arbitrary oracle value modulo `hi`, so the set of reachable draws is exactly
  `{0, ..., hi - 1}`, matching a uniform draw's support; an empty range makes
  `gen_range` abort, as it does in `rand`.
- Run-aborting failures (panics and propagated errors) are `Except.error`.
- The network is an oracle giving, per loop iteration, the outcome of
  `send_to` and the behaviour of `recv_from`.  Since `recv_from(..).await` has
  no timeout anywhere in the source, the case in which no datagram ever
  arrives is modelled by the constructor `RecvOutcome.silence`, on which the
  worker is parked forever (`finished = false` in its observable run record).
-/

deriving instance DecidableEq for Except

/-- `usize` modulus: the code targets a 64-bit platform. -/
def USIZE_MOD : Nat := 2 ^ 64

/-- `u16` modulus. -/
def U16_MOD : Nat := 2 ^ 16

/-- `const BUFFER_SIZE: usize = 1500;` from `main.rs`. -/
def BUFFER_SIZE : Nat := 1500

/-- `const NUM_ENTRIES: usize = 10000;` from `main.rs`. -/
def NUM_ENTRIES : Nat := 10000

/-- UTF-8 encoding of one unicode scalar value, as produced by Rust's
`String::into_bytes` for each `char` of the string. -/
def utf8EncodeChar (c : Nat) : List Nat :=
  if c < 0x80 then [c]
  else if c < 0x800 then [0xC0 + c / 64, 0x80 + c % 64]
  else if c < 0x10000 then [0xE0 + c / 4096, 0x80 + c / 64 % 64, 0x80 + c % 64]
  else [0xF0 + c / 262144, 0x80 + c / 4096 % 64, 0x80 + c / 64 % 64, 0x80 + c % 64]

/-- UTF-8 encoding of a character list. -/
def utf8EncodeList (cs : List Char) : List Nat :=
  (cs.map fun c => utf8EncodeChar c.toNat).flatten

/-- Byte content of a Rust `String` (`format!(..).into_bytes()` is the UTF-8
encoding of the formatted string). -/
def utf8Encode (s : String) : List Nat :=
  utf8EncodeList s.toList

/-- `u16::to_be_bytes` of a sequence id: big-endian byte pair. -/
def u16ToBeBytes (seq : Nat) : List Nat :=
  [seq / 256 % 256, seq % 256]

/-- `wrap_get_command` from `main.rs`.  The source builds
`seq.to_be_bytes().to_vec()`, appends the fixed vector `vec![0, 0, 0, 1, 0, 0]`
and then appends `format!("get {}\r\n", key).into_bytes()`; the resulting byte
vector is exactly this concatenation. -/
def wrap_get_command (key : String) (seq : Nat) : List Nat :=
  u16ToBeBytes seq ++ [0, 0, 0, 1, 0, 0] ++ utf8Encode ("get " ++ key ++ "\r\n")

/-- Reading the first two bytes of a frame as a big-endian `u16`.  The
repository contains no response/header decoder; this formalises the decoding
operation named by the round-trip law ("decoding the first two header bytes as
a big-endian u16"). -/
def decodeSeqBe (frame : List Nat) : Nat :=
  frame.getD 0 0 * 256 + frame.getD 1 0

/-- Is `b` a UTF-8 continuation byte (`0x80..0xBF`)? -/
def isUtf8Cont (b : Nat) : Bool :=
  0x80 ≤ b && b < 0xC0

/-- The replacement character `U+FFFD` used by `String::from_utf8_lossy`. -/
def replacementChar : Char :=
  Char.ofNat 0xFFFD

/-- Model of `String::from_utf8_lossy` on a byte list: well-formed UTF-8
sequences decode to their scalar value, ill-formed bytes become `U+FFFD` and
decoding resynchronises on the following byte.  (Rust replaces each maximal
ill-formed subsequence; this model may emit a different number of `U+FFFD`s on
ill-formed input, which is irrelevant here because the program discards the
decoded string.) -/
def utf8DecodeLossy : List Nat → List Char
  | [] => []
  | b :: rest =>
    if b < 0x80 then Char.ofNat b :: utf8DecodeLossy rest
    else if b < 0xC2 then replacementChar :: utf8DecodeLossy rest
    else if b < 0xE0 then
      match rest with
      | [] => [replacementChar]
      | b1 :: rest2 =>
        if isUtf8Cont b1 then
          Char.ofNat ((b - 0xC0) * 64 + (b1 - 0x80)) :: utf8DecodeLossy rest2
        else replacementChar :: utf8DecodeLossy (b1 :: rest2)
    else if b < 0xF0 then
      match rest with
      | b1 :: b2 :: rest3 =>
        if isUtf8Cont b1 && isUtf8Cont b2 then
          Char.ofNat ((b - 0xE0) * 4096 + (b1 - 0x80) * 64 + (b2 - 0x80)) ::
            utf8DecodeLossy rest3
        else replacementChar :: utf8DecodeLossy (b1 :: b2 :: rest3)
      | tail => replacementChar :: utf8DecodeLossy tail
    else if b < 0xF5 then
      match rest with
      | b1 :: b2 :: b3 :: rest4 =>
        if isUtf8Cont b1 && isUtf8Cont b2 && isUtf8Cont b3 then
          Char.ofNat
              ((b - 0xF0) * 262144 + (b1 - 0x80) * 4096 + (b2 - 0x80) * 64 +
                (b3 - 0x80)) ::
            utf8DecodeLossy rest4
        else replacementChar :: utf8DecodeLossy (b1 :: b2 :: b3 :: rest4)
      | tail => replacementChar :: utf8DecodeLossy tail
    else replacementChar :: utf8DecodeLossy rest
termination_by bs => bs.length
decreasing_by all_goals simp_wf <;> simp_arith

/-- Outcome of one `socket.send_to(..).await` call. -/
inductive SendOutcome where
  | ok
  | failed (msg : String)
deriving DecidableEq

/-- Behaviour of one `socket.recv_from(..).await` call.  `datagram payload`:
a datagram with the given bytes arrives (the code copies at most
`BUFFER_SIZE` of them into its buffer); `oserror msg`: the call returns an OS
error; `silence`: no datagram ever arrives — since the source wraps the
receive in no timeout, the awaiting task is then suspended forever. -/
inductive RecvOutcome where
  | datagram (payload : List Nat)
  | oserror (msg : String)
  | silence
deriving DecidableEq

/-- One `(Vec<u8>, String)` item of the `mpsc` channel: a pre-encoded frame
and the destination address. -/
structure Envelope where
  frame : List Nat
  addr : String
deriving DecidableEq

/-- Observable result of running `socket_task` on the (finite) channel
contents: the console lines printed, the number of envelopes fully handled,
and whether the loop reached its terminal state (`finished = false` means the
task is parked forever inside a `recv_from` that never completes). -/
structure WorkerRun where
  console : List String
  processed : Nat
  finished : Bool
deriving DecidableEq

/-- `socket_task` from `main.rs`, run on the list of envelopes the producer
pushes (the channel preserves order and delivers each envelope exactly once,
so the drained channel is this list).  Per envelope the task sends the frame
with `let _ = socket.send_to(..)` — the send result is ignored — and then
awaits `recv_from`: a received datagram is truncated to `BUFFER_SIZE` bytes,
lossily decoded to a string and discarded (`println!` is commented out); an OS
error is ignored (`if let Ok(..)` with no else); if no datagram ever arrives
the await never completes.  The task prints nothing in any branch. -/
def socket_task (net : Nat → SendOutcome × RecvOutcome) :
    List Envelope → Nat → WorkerRun
  | [], _ => ⟨[], 0, true⟩
  | _e :: rest, i =>
    match (net i).2 with
    | RecvOutcome.silence => ⟨[], 0, false⟩
    | RecvOutcome.oserror _m =>
      let r := socket_task net rest (i + 1)
      ⟨r.console, r.processed + 1, r.finished⟩
    | RecvOutcome.datagram p =>
      let _s := String.mk (utf8DecodeLossy (p.take BUFFER_SIZE))
      let r := socket_task net rest (i + 1)
      ⟨r.console, r.processed + 1, r.finished⟩

/-- 64-bit wrapping subtraction: the release-mode semantics of the `usize`
subtraction `dict_len - 1` in both benchmark loops.  For `a, b < USIZE_MOD`
this case split agrees with the wrap-around form
`(a + (USIZE_MOD - b)) % USIZE_MOD`; see `usizeSub_eq_wrap`. -/
def usizeSub (a b : Nat) : Nat :=
  if b ≤ a then a - b else a + USIZE_MOD - b

/-- `u16::wrapping_add`. -/
def u16WrappingAdd (a b : Nat) : Nat :=
  (a + b) % U16_MOD

/-- `rand::thread_rng().gen_range(0..hi)`: a uniform draw below `hi`,
modelled as an arbitrary oracle value reduced modulo `hi` (so the reachable
draws are exactly `{0, ..., hi - 1}`).  `gen_range` on an empty range aborts
the task, modelled as `Except.error`. -/
def gen_range (oracle : Nat) (hi : Nat) : Except String Nat :=
  if hi = 0 then Except.error "cannot sample empty range"
  else Except.ok (oracle % hi)

/-- Rust vector indexing `keys[i]`: out of bounds aborts the task. -/
def index_key (keys : List String) (i : Nat) : Except String String :=
  match keys.get? i with
  | some k => Except.ok k
  | none => Except.error "index out of bounds"

/-- The key-sampling step `keys[thread_rng().gen_range(0..dict_len - 1)]`
shared verbatim by `get_command_benchmark` and
`get_command_benchmark_verify` (`dict_len = keys.len()`). -/
def sample_key (keys : List String) (oracle : Nat) : Except String String :=
  match gen_range oracle (usizeSub keys.length 1) with
  | Except.error m => Except.error m
  | Except.ok r => index_key keys r

/-- The producer loop of `get_command_benchmark`: for `nums` iterations it
samples a key, encodes `wrap_get_command key seq`, then wrapping-increments
`seq` (the packet uses the pre-increment value; `seq` starts at 0), and pushes
`(packet, addr)` onto the channel.  Returns the envelopes pushed in order;
a sampling abort is propagated as `Except.error`.  Arguments after `addr`:
remaining iterations, oracle position, current `seq`. -/
def produce_envelopes (keys : List String) (oracle : Nat → Nat)
    (addr : String) : Nat → Nat → Nat → Except String (List Envelope)
  | 0, _, _ => Except.ok []
  | n + 1, i, seq =>
    match sample_key keys (oracle i) with
    | Except.error m => Except.error m
    | Except.ok key =>
      match produce_envelopes keys oracle addr n (i + 1) (u16WrappingAdd seq 1) with
      | Except.error m => Except.error m
      | Except.ok rest => Except.ok (⟨wrap_get_command key seq, addr⟩ :: rest)

/-- `get_command_benchmark` from `main.rs`: the producer pushes envelopes
onto a bounded channel consumed by `socket_task`, the channel is closed
(`drop(tx)`) after the loop, and the function awaits the task.  The channel
delivers the envelopes in order exactly once, so the composition is modelled
sequentially: build the pushed envelopes, then run the worker on them. -/
def get_command_benchmark (keys : List String) (oracle : Nat → Nat)
    (net : Nat → SendOutcome × RecvOutcome) (addr : String) (nums : Nat) :
    Except String WorkerRun :=
  match produce_envelopes keys oracle addr nums 0 0 with
  | Except.error m => Except.error m
  | Except.ok envs => Except.ok (socket_task net envs 0)

/-- Result of one `get_key` call: `ok console` returns normally having
printed `console`; `err msg` propagates an error to the caller (the send `?`);
`blocked` models a `recv_from` await that never completes. -/
inductive GetKeyResult where
  | ok (console : List String)
  | err (msg : String)
  | blocked
deriving DecidableEq

/-- `get_key` from `main.rs`: encodes the frame, sends it — a send error is
propagated with `?` — and then awaits `recv_from`: a datagram is truncated to
`BUFFER_SIZE` bytes, lossily decoded and discarded; a receive error prints
`get key error: {e}` and the function still returns `Ok(())`; if no datagram
ever arrives the await never completes. -/
def get_key (send : SendOutcome) (recv : RecvOutcome) (key : String)
    (seq : Nat) : GetKeyResult :=
  let _buf := wrap_get_command key seq
  match send with
  | SendOutcome.failed m => GetKeyResult.err m
  | SendOutcome.ok =>
    match recv with
    | RecvOutcome.silence => GetKeyResult.blocked
    | RecvOutcome.datagram p =>
      let _s := String.mk (utf8DecodeLossy (p.take BUFFER_SIZE))
      GetKeyResult.ok []
    | RecvOutcome.oserror m => GetKeyResult.ok ["get key error: " ++ m]

/-- Result of the `get_command_benchmark_verify` loop: normal return,
propagated error (aborting the loop), or parked forever inside `get_key`;
each carries the console lines printed before that point. -/
inductive VerifyRun where
  | ok (console : List String)
  | err (console : List String) (msg : String)
  | blocked (console : List String)
deriving DecidableEq

/-- The request loop of `get_command_benchmark_verify` from `main.rs`: for
`nums` iterations it samples a key, wrapping-increments `seq` (starting from
0, so the first call uses 1) and calls `get_key(key, socket, seq, addr)?` —
the `?` aborts the whole loop on a `get_key` error.  Arguments: remaining
iterations, oracle position, current `seq`. -/
def get_command_benchmark_verify (keys : List String) (oracle : Nat → Nat)
    (net : Nat → SendOutcome × RecvOutcome) : Nat → Nat → Nat → VerifyRun
  | 0, _, _ => VerifyRun.ok []
  | n + 1, i, seq =>
    match sample_key keys (oracle i) with
    | Except.error m => VerifyRun.err [] m
    | Except.ok key =>
      match get_key (net i).1 (net i).2 key (u16WrappingAdd seq 1) with
      | GetKeyResult.err m => VerifyRun.err [] m
      | GetKeyResult.blocked => VerifyRun.blocked []
      | GetKeyResult.ok out =>
        match get_command_benchmark_verify keys oracle net n (i + 1)
            (u16WrappingAdd seq 1) with
        | VerifyRun.ok cs => VerifyRun.ok (out ++ cs)
        | VerifyRun.err cs m => VerifyRun.err (out ++ cs) m
        | VerifyRun.blocked cs => VerifyRun.blocked (out ++ cs)

/-- `generate_random_str` from `main.rs`:
`Alphanumeric.sample_string(&mut rand::thread_rng(), len)` returns a string of
exactly `len` characters drawn from the thread RNG.  The RNG is modelled as a
character stream with an explicit position: the call reads the `len`
characters at positions `pos, pos+1, ..`. -/
def generate_random_str (stream : Nat → Char) (pos len : Nat) : String :=
  String.mk ((List.range len).map fun j => stream (pos + j))

/-- Insertion into a `HashMap<String, String>`: a pair whose key is already
present overwrites that key's value, otherwise the pair is added. -/
def hashMapInsert (m : List (String × String)) (k v : String) :
    List (String × String) :=
  if m.any fun p => p.1 == k then
    m.map fun p => if p.1 == k then (k, v) else p
  else m ++ [(k, v)]

/-- `collect::<HashMap<_, _>>()` over a pair iterator: left-to-right
insertion, later pairs overwriting earlier ones with the same key. -/
def hashMapCollect (ps : List (String × String)) : List (String × String) :=
  ps.foldl (fun m p => hashMapInsert m p.1 p.2) []

/-- `generate_memcached_test_dict` from `main.rs`:
`(0..nums).map(|_| (generate_random_str(key_size), generate_random_str(value_size))).collect()`.
Iteration `i` draws first the key then the value from the RNG stream, so they
occupy consecutive stream positions. -/
def generate_memcached_test_dict (stream : Nat → Char)
    (key_size value_size nums : Nat) : List (String × String) :=
  hashMapCollect ((List.range nums).map fun i =>
    (generate_random_str stream (i * (key_size + value_size)) key_size,
     generate_random_str stream (i * (key_size + value_size) + key_size)
       value_size))

theorem socket_task_console_eq_nil (net : Nat → SendOutcome × RecvOutcome) :
    ∀ envs i, (socket_task net envs i).console = [] := by
  intro envs
  induction envs with
  | nil => intro i; rfl
  | cons e rest ih =>
    intro i
    cases hrec : (net i).2 with
    | silence => simp [socket_task, hrec]
    | oserror m => simp [socket_task, hrec, ih]
    | datagram p => simp [socket_task, hrec, ih]

theorem socket_task_of_no_silence (net : Nat → SendOutcome × RecvOutcome)
    (h : ∀ j, (net j).2 ≠ RecvOutcome.silence) :
    ∀ envs i, socket_task net envs i = ⟨[], envs.length, true⟩ := by
  intro envs
  induction envs with
  | nil => intro i; rfl
  | cons e rest ih =>
    intro i
    cases hrec : (net i).2 with
    | silence => exact absurd hrec (h i)
    | oserror m => simp [socket_task, hrec, ih]
    | datagram p => simp [socket_task, hrec, ih]

theorem usizeSub_eq_wrap (a b : Nat) (ha : a < USIZE_MOD) (hb : b < USIZE_MOD) :
    usizeSub a b = (a + (USIZE_MOD - b)) % USIZE_MOD := by
  have hm : USIZE_MOD = 18446744073709551616 := by norm_num [USIZE_MOD]
  rw [hm] at ha hb ⊢
  simp only [usizeSub, hm]
  split <;> omega

theorem usizeSub_one_eq (a : Nat) (h1 : 1 ≤ a) :
    usizeSub a 1 = a - 1 := by
  simp only [usizeSub, if_pos h1]

theorem sample_key_mem (keys : List String) (h2 : 2 ≤ keys.length)
    (o : Nat) :
    ∃ k, keys.get? (o % (keys.length - 1)) = some k ∧
      sample_key keys o = Except.ok k := by
  have hsub : usizeSub keys.length 1 = keys.length - 1 :=
    usizeSub_one_eq _ (by omega)
  have hpos : ¬ keys.length - 1 = 0 := by omega
  have hr : o % (keys.length - 1) < keys.length :=
    lt_of_lt_of_le (Nat.mod_lt _ (by omega)) (Nat.sub_le _ _)
  refine ⟨keys.get ⟨o % (keys.length - 1), hr⟩, List.get?_eq_get hr, ?_⟩
  simp [sample_key, gen_range, hsub, hpos, index_key,
    List.getElem?_eq_getElem hr]

theorem produce_envelopes_ok (keys : List String) (oracle : Nat → Nat)
    (addr : String) (h2 : 2 ≤ keys.length) :
    ∀ n i seq, ∃ envs,
      produce_envelopes keys oracle addr n i seq = Except.ok envs ∧
        envs.length = n := by
  intro n
  induction n with
  | zero => intro i seq; exact ⟨[], rfl, rfl⟩
  | succ n ih =>
    intro i seq
    obtain ⟨k, _hk, hs⟩ := sample_key_mem keys h2 (oracle i)
    obtain ⟨envs, he, hl⟩ := ih (i + 1) (u16WrappingAdd seq 1)
    refine ⟨⟨wrap_get_command k seq, addr⟩ :: envs, ?_, by simp [hl]⟩
    simp [produce_envelopes, hs, he]

theorem generate_random_str_length (stream : Nat → Char) (pos len : Nat) :
    (generate_random_str stream pos len).length = len := by
  simp [generate_random_str, String.length_mk]

theorem hashMapInsert_length_le (m : List (String × String)) (k v : String) :
    (hashMapInsert m k v).length ≤ m.length + 1 := by
  unfold hashMapInsert
  split
  · simp
  · simp

theorem mem_hashMapInsert {m : List (String × String)} {k v : String}
    {x : String × String} (hx : x ∈ hashMapInsert m k v) :
    x ∈ m ∨ x = (k, v) := by
  unfold hashMapInsert at hx
  split at hx
  · obtain ⟨p, hp, hfx⟩ := List.mem_map.1 hx
    by_cases hpk : (p.1 == k) = true
    · right
      rw [if_pos hpk] at hfx
      exact hfx.symm
    · left
      rw [if_neg hpk] at hfx
      exact hfx ▸ hp
  · rcases List.mem_append.1 hx with h | h
    · exact Or.inl h
    · right
      simpa using h

theorem hashMapCollect_go_length (ps : List (String × String)) :
    ∀ m, (ps.foldl (fun m p => hashMapInsert m p.1 p.2) m).length ≤
      m.length + ps.length := by
  induction ps with
  | nil => intro m; simp
  | cons p ps ih =>
    intro m
    have h1 := ih (hashMapInsert m p.1 p.2)
    have h2 := hashMapInsert_length_le m p.1 p.2
    simp only [List.foldl_cons, List.length_cons]
    omega

theorem hashMapCollect_length_le (ps : List (String × String)) :
    (hashMapCollect ps).length ≤ ps.length := by
  simpa [hashMapCollect] using hashMapCollect_go_length ps []

theorem mem_hashMapCollect_go (ps : List (String × String)) :
    ∀ m x, x ∈ ps.foldl (fun m p => hashMapInsert m p.1 p.2) m →
      x ∈ m ∨ x ∈ ps := by
  induction ps with
  | nil =>
    intro m x hx
    simp only [List.foldl_nil] at hx
    exact Or.inl hx
  | cons p ps ih =>
    intro m x hx
    simp only [List.foldl_cons] at hx
    rcases ih _ x hx with hm | hp
    · rcases mem_hashMapInsert hm with h | h
      · exact Or.inl h
      · exact Or.inr (by simp [h])
    · exact Or.inr (List.mem_cons_of_mem _ hp)

theorem mem_hashMapCollect {ps : List (String × String)}
    {x : String × String} (hx : x ∈ hashMapCollect ps) : x ∈ ps := by
  rcases mem_hashMapCollect_go ps [] x hx with h | h
  · simp at h
  · exact h

theorem utf8EncodeChar_ascii (c : Nat) (h : c < 128) :
    utf8EncodeChar c = [c] := by
  unfold utf8EncodeChar
  rw [if_pos (by omega)]

theorem utf8EncodeList_ascii :
    ∀ cs : List Char, (∀ c ∈ cs, c.toNat < 128) →
      utf8EncodeList cs = cs.map Char.toNat := by
  intro cs
  induction cs with
  | nil => intro _; rfl
  | cons c cs ih =>
    intro h
    have hc : c.toNat < 128 := h c (List.mem_cons_self c cs)
    have ht := ih fun d hd => h d (List.mem_cons_of_mem c hd)
    simp only [utf8EncodeList, List.map_cons, List.flatten_cons] at ht ⊢
    rw [utf8EncodeChar_ascii c.toNat hc, ht]
    rfl

theorem string_toList_append (s t : String) :
    (s ++ t).toList = s.toList ++ t.toList := by
  show (s ++ t).data = s.data ++ t.data
  exact String.data_append s t

example : wrap_get_command "k" 258 = [1, 2, 0, 0, 0, 1, 0, 0,
    103, 101, 116, 32, 107, 13, 10] := by decide

example : socket_task (fun _ => (SendOutcome.ok, RecvOutcome.silence))
    [⟨[0], "a"⟩, ⟨[1], "a"⟩] 0 = ⟨[], 0, false⟩ := rfl

example : socket_task (fun _ => (SendOutcome.failed "x", RecvOutcome.oserror "y"))
    [⟨[0], "a"⟩, ⟨[1], "a"⟩] 0 = ⟨[], 2, true⟩ := rfl

example : socket_task (fun _ => (SendOutcome.ok, RecvOutcome.datagram [72, 300]))
    [⟨[0], "a"⟩] 0 = ⟨[], 1, true⟩ := rfl

example : sample_key ["a", "b"] 0 = Except.ok "a" := by decide

example : sample_key ["a", "b"] 7 = Except.ok "a" := by decide

example : sample_key ["a"] 3 = Except.error "cannot sample empty range" := by decide

example : sample_key [] 0 = Except.error "index out of bounds" := by decide

example : (generate_memcached_test_dict (fun _ => 'a') 1 1 2).length = 1 := by decide

example : get_command_benchmark [] (fun _ => 0)
    (fun _ => (SendOutcome.ok, RecvOutcome.silence)) "127.0.0.1:11211" 1 =
    Except.error "index out of bounds" := by decide

example : get_command_benchmark ["a", "b"] (fun _ => 0)
    (fun _ => (SendOutcome.ok, RecvOutcome.silence)) "127.0.0.1:11211" 2 =
    Except.ok ⟨[], 0, false⟩ := by decide

example : get_command_benchmark_verify ["a", "b"] (fun _ => 0)
    (fun _ => (SendOutcome.failed "Network unreachable", RecvOutcome.silence))
    1 0 0 = VerifyRun.err [] "Network unreachable" := by decide

example : get_command_benchmark_verify ["a", "b"] (fun _ => 0)
    (fun _ => (SendOutcome.ok, RecvOutcome.oserror "timed out"))
    2 0 0 = VerifyRun.ok ["get key error: timed out",
      "get key error: timed out"] := by decide

/-- C4: for every key (made of ASCII characters, as the alphanumeric corpus
keys are) and every sequence id below `2^16`, the encoded GET datagram is
exactly a fixed 8-byte binary header — the sequence id as a big-endian `u16`
followed by the six constant reserved bytes `[0, 0, 0, 1, 0, 0]` (the
fixed/reserved fields: sequence index `0`, datagram count `1`, reserved
`0`) — followed by the ASCII bytes of `"get " ++ key ++ "\r\n"`. -/
theorem wrap_get_command_layout (key : String) (seq : Nat)
    (hseq : seq < 65536) (hkey : ∀ c ∈ key.toList, c.toNat < 128) :
    (wrap_get_command key seq).take 8 =
        [seq / 256, seq % 256, 0, 0, 0, 1, 0, 0] ∧
      (wrap_get_command key seq).drop 8 =
        ("get " ++ key ++ "\r\n").toList.map Char.toNat := by
  have hget : ∀ c ∈ "get ".toList, c.toNat < 128 := by decide
  have hcrlf : ∀ c ∈ "\r\n".toList, c.toNat < 128 := by decide
  have hall : ∀ c ∈ ("get " ++ key ++ "\r\n").toList, c.toNat < 128 := by
    intro c hc
    rw [string_toList_append, string_toList_append] at hc
    rcases List.mem_append.1 hc with hc2 | hc2
    · rcases List.mem_append.1 hc2 with hc3 | hc3
      · exact hget c hc3
      · exact hkey c hc3
    · exact hcrlf c hc2
  have henc : utf8Encode ("get " ++ key ++ "\r\n") =
      ("get " ++ key ++ "\r\n").toList.map Char.toNat :=
    utf8EncodeList_ascii _ hall
  have hdiv : seq / 256 % 256 = seq / 256 := Nat.mod_eq_of_lt (by omega)
  refine ⟨?_, ?_⟩
  · simp only [wrap_get_command, u16ToBeBytes]
    rw [hdiv]
    rfl
  · simp only [wrap_get_command, u16ToBeBytes]
    rw [henc]
    rfl

/-- Witness for `wrap_get_command_layout` at `key = "abc123"`, `seq = 258`. -/
theorem wrap_get_command_layout_witness :
    (wrap_get_command "abc123" 258).take 8 =
        [258 / 256, 258 % 256, 0, 0, 0, 1, 0, 0] ∧
      (wrap_get_command "abc123" 258).drop 8 =
        ("get " ++ "abc123" ++ "\r\n").toList.map Char.toNat :=
  wrap_get_command_layout "abc123" 258 (by decide) (by decide)

/-- C9: header round-trip law — encoding a GET request for any key `K` with
any sequence id `S < 2^16` and then decoding the first two header bytes as a
big-endian `u16` recovers `S` unchanged. -/
theorem decode_wrap_get_command_seq (key : String) (seq : Nat)
    (hseq : seq < U16_MOD) :
    decodeSeqBe (wrap_get_command key seq) = seq := by
  have hm : U16_MOD = 65536 := by norm_num [U16_MOD]
  rw [hm] at hseq
  have h0 : (wrap_get_command key seq).getD 0 0 = seq / 256 % 256 := rfl
  have h1 : (wrap_get_command key seq).getD 1 0 = seq % 256 := rfl
  show (wrap_get_command key seq).getD 0 0 * 256 +
    (wrap_get_command key seq).getD 1 0 = seq
  rw [h0, h1]
  omega

/-- Witness for `decode_wrap_get_command_seq` at `key = "k"`,
`seq = 65535`. -/
theorem decode_wrap_get_command_seq_witness :
    65535 < U16_MOD ∧ decodeSeqBe (wrap_get_command "k" 65535) = 65535 :=
  ⟨by norm_num [U16_MOD],
    decode_wrap_get_command_seq "k" 65535 (by norm_num [U16_MOD])⟩

/-- C1 (counterexample): a concrete mismatch scenario.  The corpus stores
value `"xyzvalue"` for key `"abc123"`; the worker sends the GET frame for
that key and a response datagram arrives carrying the wrong value
`"WRONGVAL"` — yet the worker's console output is empty and the run simply
moves on: no diagnostic identifying key, received value and expected value is
emitted, because `socket_task` converts the payload to a string and discards
it without ever comparing it to the corpus. -/
theorem socket_task_mismatch_no_diagnostic :
    socket_task
      (fun _ => (SendOutcome.ok, RecvOutcome.datagram
        (utf8Encode "VALUE abc123 0 8\r\nWRONGVAL\r\nEND\r\n")))
      [⟨wrap_get_command "abc123" 0, "127.0.0.1:11211"⟩] 0 =
      ⟨[], 1, true⟩ := by
  rfl

/-- C1 (amended): the socket worker performs no validation at all.  The
program has no validate flag; for every network behaviour, every channel
content and every starting step, `socket_task` decodes each received response
to a string and discards it, never compares it with the corpus value, and
emits no console output whatsoever — in particular no mismatch diagnostic —
while the benchmark continues. -/
theorem socket_task_never_validates (net : Nat → SendOutcome × RecvOutcome) :
    ∀ envs i, (socket_task net envs i).console = [] :=
  socket_task_console_eq_nil net

/-- C2 (counterexample): with two envelopes queued and a network in which no
response datagram ever arrives, the worker processes zero envelopes and never
reaches the terminal state (`finished = false`): the lost response is not
dropped after any bounded timeout — the worker does not proceed to the next
envelope and the run does not complete, contradicting the claim. -/
theorem socket_task_lost_response_blocks :
    socket_task (fun _ => (SendOutcome.ok, RecvOutcome.silence))
      [⟨wrap_get_command "abc123" 1, "127.0.0.1:11211"⟩,
       ⟨wrap_get_command "abc123" 2, "127.0.0.1:11211"⟩] 0 =
      ⟨[], 0, false⟩ := by
  rfl

/-- C2 (amended): the response receive is awaited with no timeout at all.
Whenever the network delivers neither a datagram nor an error for the head
envelope's receive, the worker stays parked in that `recv_from` forever: it
handles zero envelopes and never finishes, so a run with a lost response does
not complete.  (A receive that returns — datagram or OS error — is handled
without retry and the loop continues.) -/
theorem socket_task_recv_no_timeout (net : Nat → SendOutcome × RecvOutcome)
    (e : Envelope) (rest : List Envelope) (i : Nat)
    (h : (net i).2 = RecvOutcome.silence) :
    socket_task net (e :: rest) i = ⟨[], 0, false⟩ := by
  simp [socket_task, h]

/-- Witness for `socket_task_recv_no_timeout` at a concrete silent network
and a single queued envelope. -/
theorem socket_task_recv_no_timeout_witness :
    ((fun _ : Nat => (SendOutcome.ok, RecvOutcome.silence)) 0).2 =
        RecvOutcome.silence ∧
      socket_task (fun _ => (SendOutcome.ok, RecvOutcome.silence))
        [⟨[0], "127.0.0.1:11211"⟩] 0 = ⟨[], 0, false⟩ :=
  ⟨rfl, socket_task_recv_no_timeout _ _ _ _ rfl⟩

/-- C5 (counterexample): a per-request send error is fatal on the sequential
worker path.  In `get_command_benchmark_verify` with a two-key corpus and one
request, an OS-level `send_to` failure propagates out of `get_key` through
`?` and aborts the whole benchmark loop with that error instead of being
logged and skipped. -/
theorem get_key_send_error_aborts :
    get_command_benchmark_verify ["a", "b"] (fun _ => 0)
      (fun _ => (SendOutcome.failed "Network unreachable", RecvOutcome.silence))
      1 0 0 = VerifyRun.err [] "Network unreachable" := by
  decide

/-- C5 (amended): in the channel-based socket worker (`socket_task`, the one
the benchmark actually runs), send and receive OS-level errors are ignored
and never fatal: for any network behaviour whose receives all return (no
datagram is lost), the worker handles every envelope and reaches its terminal
state, and no per-request failure escapes the loop.  On the sequential
`get_key` path a receive error is printed (`get key error: ..`) and the loop
continues, but a send error propagates out of `get_key` and aborts the
`get_command_benchmark_verify` loop. -/
theorem socket_worker_error_containment
    (net : Nat → SendOutcome × RecvOutcome)
    (h : ∀ j, (net j).2 ≠ RecvOutcome.silence) (envs : List Envelope)
    (i : Nat) (m key : String) (seq : Nat) :
    socket_task net envs i = ⟨[], envs.length, true⟩ ∧
      get_key SendOutcome.ok (RecvOutcome.oserror m) key seq =
        GetKeyResult.ok ["get key error: " ++ m] :=
  ⟨socket_task_of_no_silence net h envs i, rfl⟩

/-- Witness for `socket_worker_error_containment`: a network all of whose
sends fail and all of whose receives return OS errors still lets the worker
drain both queued envelopes and stop. -/
theorem socket_worker_error_containment_witness :
    (∀ j : Nat, ((fun _ : Nat => (SendOutcome.failed "host down",
        RecvOutcome.oserror "conn refused")) j).2 ≠ RecvOutcome.silence) ∧
      socket_task (fun _ => (SendOutcome.failed "host down",
          RecvOutcome.oserror "conn refused"))
        [⟨[0], "a"⟩, ⟨[1], "a"⟩] 0 = ⟨[], 2, true⟩ ∧
      get_key SendOutcome.ok (RecvOutcome.oserror "conn refused") "k" 1 =
        GetKeyResult.ok ["get key error: " ++ "conn refused"] := by
  have hns : ∀ j : Nat, ((fun _ : Nat => (SendOutcome.failed "host down",
      RecvOutcome.oserror "conn refused")) j).2 ≠ RecvOutcome.silence :=
    fun _ => (by decide :
      RecvOutcome.oserror "conn refused" ≠ RecvOutcome.silence)
  have h := socket_worker_error_containment
    (fun _ => (SendOutcome.failed "host down",
      RecvOutcome.oserror "conn refused"))
    hns [⟨[0], "a"⟩, ⟨[1], "a"⟩] 0 "conn refused" "k" 1
  exact ⟨hns, h.1, h.2⟩

/-- Shape relation on receive outcomes: both sides are arriving datagrams
(with arbitrary payloads of at most `BUFFER_SIZE` bytes), or the outcomes are
identical. -/
def payloadVariant : RecvOutcome → RecvOutcome → Prop
  | RecvOutcome.datagram p, RecvOutcome.datagram q =>
      p.length ≤ BUFFER_SIZE ∧ q.length ≤ BUFFER_SIZE
  | a, b => a = b

/-- C10: response contents have no effect on the program.  For any two
network behaviours that agree on send outcomes and on whether each receive
returns a datagram, an error, or nothing — but whose response payloads may
differ arbitrarily in content and length (up to the receive buffer size) —
`socket_task` produces identical runs: identical console output, progress and
termination, because the response body is converted to a string and
immediately discarded. -/
theorem socket_task_payload_noninterference
    (net1 net2 : Nat → SendOutcome × RecvOutcome)
    (h : ∀ j, (net1 j).1 = (net2 j).1 ∧
      payloadVariant (net1 j).2 (net2 j).2) :
    ∀ envs i, socket_task net1 envs i = socket_task net2 envs i := by
  intro envs
  induction envs with
  | nil => intro i; rfl
  | cons e rest ih =>
    intro i
    have h2 := (h i).2
    cases h1 : (net1 i).2 <;> cases hb : (net2 i).2 <;>
      rw [h1, hb] at h2 <;> simp [payloadVariant] at h2 <;>
      simp [socket_task, h1, hb, ih]

/-- Witness for `socket_task_payload_noninterference`: two networks differing
only in the received payload — one a well-formed memcached response for the
sent key, the other arbitrary bytes — yield equal worker runs. -/
theorem socket_task_payload_noninterference_witness :
    (∀ j : Nat, ((fun _ : Nat => (SendOutcome.ok, RecvOutcome.datagram
          (utf8Encode "VALUE abc123 0 8\r\nxyzvalue\r\nEND\r\n"))) j).1 =
        ((fun _ : Nat => (SendOutcome.ok,
          RecvOutcome.datagram [7, 7, 7])) j).1 ∧
      payloadVariant
        ((fun _ : Nat => (SendOutcome.ok, RecvOutcome.datagram
          (utf8Encode "VALUE abc123 0 8\r\nxyzvalue\r\nEND\r\n"))) j).2
        ((fun _ : Nat => (SendOutcome.ok,
          RecvOutcome.datagram [7, 7, 7])) j).2) ∧
    socket_task (fun _ => (SendOutcome.ok, RecvOutcome.datagram
        (utf8Encode "VALUE abc123 0 8\r\nxyzvalue\r\nEND\r\n")))
      [⟨wrap_get_command "abc123" 0, "127.0.0.1:11211"⟩] 0 =
    socket_task (fun _ => (SendOutcome.ok, RecvOutcome.datagram [7, 7, 7]))
      [⟨wrap_get_command "abc123" 0, "127.0.0.1:11211"⟩] 0 := by
  have hp : ∀ j : Nat, ((fun _ : Nat => (SendOutcome.ok,
        RecvOutcome.datagram
          (utf8Encode "VALUE abc123 0 8\r\nxyzvalue\r\nEND\r\n"))) j).1 =
      ((fun _ : Nat => (SendOutcome.ok,
        RecvOutcome.datagram [7, 7, 7])) j).1 ∧
      payloadVariant
        ((fun _ : Nat => (SendOutcome.ok, RecvOutcome.datagram
          (utf8Encode "VALUE abc123 0 8\r\nxyzvalue\r\nEND\r\n"))) j).2
        ((fun _ : Nat => (SendOutcome.ok,
          RecvOutcome.datagram [7, 7, 7])) j).2 :=
    fun _ => ⟨rfl, (by decide :
      (utf8Encode "VALUE abc123 0 8\r\nxyzvalue\r\nEND\r\n").length ≤
        BUFFER_SIZE), (by decide : ([7, 7, 7] : List Nat).length ≤
        BUFFER_SIZE)⟩
  exact ⟨hp, socket_task_payload_noninterference _ _ hp _ 0⟩

/-- C3 (counterexample): duplicate random keys collapse in the map.  With a
degenerate RNG stream that always yields the character `a`, `key_size = 1`,
`value_size = 1` and `nums = 2`, both iterations generate the pair
`("a", "a")`, and the collected `HashMap` has a single entry, not
`nums = 2`. -/
theorem generate_memcached_test_dict_collision :
    generate_memcached_test_dict (fun _ => 'a') 1 1 2 = [("a", "a")] ∧
      (generate_memcached_test_dict (fun _ => 'a') 1 1 2).length ≠ 2 := by
  refine ⟨by decide, by decide⟩

/-- C3 (amended): for every RNG stream and configuration, the generated
corpus is a map with at most `nums` entries (duplicate generated keys
collapse, so exactly `nums` is reached only when all generated keys are
distinct), and every key in it has length `key_size` and every value has
length `value_size`. -/
theorem generate_memcached_test_dict_sizes (stream : Nat → Char)
    (key_size value_size nums : Nat) :
    (generate_memcached_test_dict stream key_size value_size nums).length ≤
        nums ∧
      ∀ kv ∈ generate_memcached_test_dict stream key_size value_size nums,
        kv.1.length = key_size ∧ kv.2.length = value_size := by
  constructor
  · have h := hashMapCollect_length_le ((List.range nums).map fun i =>
      (generate_random_str stream (i * (key_size + value_size)) key_size,
       generate_random_str stream (i * (key_size + value_size) + key_size)
         value_size))
    simpa [generate_memcached_test_dict] using h
  · intro kv hkv
    have hkv2 : kv ∈ hashMapCollect ((List.range nums).map fun i =>
        (generate_random_str stream (i * (key_size + value_size)) key_size,
         generate_random_str stream (i * (key_size + value_size) + key_size)
           value_size)) := hkv
    have h2 := mem_hashMapCollect hkv2
    obtain ⟨i, _hi, hi2⟩ := List.mem_map.1 h2
    subst hi2
    exact ⟨generate_random_str_length stream _ _,
      generate_random_str_length stream _ _⟩

/-- Witness for `generate_memcached_test_dict_sizes` at a concrete stream and
configuration. -/
theorem generate_memcached_test_dict_sizes_witness :
    (generate_memcached_test_dict (fun _ => 'b') 2 3 2).length ≤ 2 :=
  (generate_memcached_test_dict_sizes (fun _ => 'b') 2 3 2).1

/-- C6 (counterexample): with an empty corpus and a single requested GET the
benchmark is not a no-op: the first iteration's `dict_len - 1` wraps to
`2^64 - 1` (release semantics; a debug build already panics at the
subtraction), the drawn index hits the empty key vector, and the run aborts
instead of completing. -/
theorem get_command_benchmark_empty_corpus_aborts :
    get_command_benchmark [] (fun _ => 0)
      (fun _ => (SendOutcome.ok, RecvOutcome.silence)) "127.0.0.1:11211" 1 =
      Except.error "index out of bounds" := by
  decide

/-- C6 (amended): with an empty corpus the benchmark completes as a no-op
only when the requested count is 0 — no envelope is produced, nothing is
sent and the worker stops immediately; for every positive request count the
first key draw indexes into the empty key vector and the run aborts. -/
theorem get_command_benchmark_empty_corpus (oracle : Nat → Nat)
    (net : Nat → SendOutcome × RecvOutcome) (addr : String) :
    get_command_benchmark [] oracle net addr 0 = Except.ok ⟨[], 0, true⟩ ∧
      ∀ n, get_command_benchmark [] oracle net addr (n + 1) =
        Except.error "index out of bounds" := by
  constructor
  · rfl
  · intro n
    have hs : ∀ o : Nat, sample_key [] o =
        Except.error "index out of bounds" := by
      intro o
      have hz : ¬ usizeSub 0 1 = 0 := by decide
      simp [sample_key, gen_range, hz, index_key]
    simp [get_command_benchmark, produce_envelopes, hs (oracle 0)]

/-- C7 (counterexample): the draw range is `0..dict_len - 1` exclusive, so
the last key position is unreachable and a singleton corpus panics.  On the
two-key corpus `["a", "b"]` every possible random draw yields `"a"` — no
draw can ever select `"b"` — and on the one-key corpus `["a"]` every draw
aborts on an empty sample range. -/
theorem sample_key_excludes_last_key :
    (∀ o : Nat, sample_key ["a", "b"] o = Except.ok "a") ∧
      ∀ o : Nat, sample_key ["a"] o =
        Except.error "cannot sample empty range" := by
  constructor
  · intro o
    have h1 : usizeSub 2 1 = 1 := by decide
    simp [sample_key, gen_range, h1, Nat.mod_one, index_key]
  · intro o
    have h0 : usizeSub 1 1 = 0 := by decide
    simp [sample_key, gen_range, h0]

/-- C7 (amended): for a corpus with at least two keys, each request's key is
drawn uniformly from all key positions except the last one: every drawn
index is below `dict_len - 1`, every such position is reached by some oracle
value, and no draw panics; the key at the last position is never selected,
and a one-key corpus makes every draw panic on an empty range. -/
theorem sample_key_support (keys : List String) (h2 : 2 ≤ keys.length) :
    (∀ o : Nat, ∃ r k, r < keys.length - 1 ∧ keys.get? r = some k ∧
        sample_key keys o = Except.ok k) ∧
      ∀ r, r < keys.length - 1 → ∃ k, keys.get? r = some k ∧
        sample_key keys r = Except.ok k := by
  constructor
  · intro o
    obtain ⟨k, hk, hsk⟩ := sample_key_mem keys h2 o
    exact ⟨o % (keys.length - 1), k, Nat.mod_lt _ (by omega), hk, hsk⟩
  · intro r hr
    obtain ⟨k, hk, hsk⟩ := sample_key_mem keys h2 r
    rw [Nat.mod_eq_of_lt hr] at hk
    exact ⟨k, hk, hsk⟩

/-- Witness for `sample_key_support` on the three-key corpus
`["a", "b", "c"]`: position 1 is reachable, drawn by oracle value 1. -/
theorem sample_key_support_witness :
    ∃ k, (["a", "b", "c"] : List String).get? 1 = some k ∧
      sample_key ["a", "b", "c"] 1 = Except.ok k :=
  (sample_key_support ["a", "b", "c"] (by decide)).2 1 (by decide)

/-- C8 (counterexample): the run does not terminate for every finite `nums`.
With a two-key corpus, `nums = 2` and a network in which no response ever
arrives, the producer's envelopes are all built but the socket worker blocks
forever inside the first `recv_from` (there is no timeout): it processes
zero envelopes and never reaches its terminal state, so the benchmark run
never finishes. -/
theorem get_command_benchmark_lost_response_never_finishes :
    get_command_benchmark ["a", "b"] (fun _ => 0)
      (fun _ => (SendOutcome.ok, RecvOutcome.silence)) "127.0.0.1:11211" 2 =
      Except.ok ⟨[], 0, false⟩ := by
  decide

/-- C8 (amended): for a corpus with at least two keys the producer pushes
exactly `nums` envelopes onto the channel and then closes it, and — provided
every receive returns (no response is lost) — the socket worker's consume
loop handles all `nums` envelopes and terminates exactly when the channel is
closed and drained, so the whole run terminates.  If some response never
arrives the worker blocks forever in `recv_from` and the run does not
terminate. -/
theorem get_command_benchmark_terminates (keys : List String)
    (oracle : Nat → Nat) (net : Nat → SendOutcome × RecvOutcome)
    (addr : String) (nums : Nat) (h2 : 2 ≤ keys.length)
    (hnet : ∀ j, (net j).2 ≠ RecvOutcome.silence) :
    ∃ envs, produce_envelopes keys oracle addr nums 0 0 = Except.ok envs ∧
      envs.length = nums ∧
      get_command_benchmark keys oracle net addr nums =
        Except.ok ⟨[], nums, true⟩ := by
  obtain ⟨envs, he, hl⟩ := produce_envelopes_ok keys oracle addr h2 nums 0 0
  refine ⟨envs, he, hl, ?_⟩
  simp [get_command_benchmark, he, socket_task_of_no_silence net hnet, hl]

/-- Witness for `get_command_benchmark_terminates`: two keys, two requests,
every receive returning an OS error; the run stops having processed both. -/
theorem get_command_benchmark_terminates_witness :
    ∃ envs, produce_envelopes ["a", "b"] (fun _ => 1)
        "127.0.0.1:11211" 2 0 0 = Except.ok envs ∧
      envs.length = 2 ∧
      get_command_benchmark ["a", "b"] (fun _ => 1)
        (fun _ => (SendOutcome.ok, RecvOutcome.oserror "refused"))
        "127.0.0.1:11211" 2 = Except.ok ⟨[], 2, true⟩ :=
  get_command_benchmark_terminates ["a", "b"] (fun _ => 1)
    (fun _ => (SendOutcome.ok, RecvOutcome.oserror "refused"))
    "127.0.0.1:11211" 2 (by decide)
    (fun _ => (by decide :
      RecvOutcome.oserror "refused" ≠ RecvOutcome.silence))
